import Mathlib

/-!
Shallow embedding of the hybrid PDF ingestion pipeline of the repository
(file App/ingest/ingest_hybrid.py) and verification of its documented
properties.

Modelling conventions:
* A PDF page is modelled by the data the pipeline reads from it: its native
  text layer, its list of embedded raster images, and the (deterministic)
  responses the external vision interpreter would give for the two kinds of
  full-page requests.  One boolean flag per page models an unexpected
  exception raised anywhere while processing that page (the code catches it
  at the per-page loop).
* Calls to the external Image Interpreter are tracked explicitly: every
  function that may trigger such a call also returns the list of calls made.
* Python strings are Lean String values; python s.strip() is pyStrip,
  python substring containment is strContainsSub, python "sep".join is
  String.intercalate.
* The configuration values MIN_TEXT_LENGTH, OVERLAP_SIZE and MIN_IMAGE_SIZE
  are read from the environment by the module; they are modelled as a
  Config record, with defaultConfig holding the default values 500/500/3000.
-/

/-- Configuration values read from the environment at module load
(MIN_TEXT_LENGTH, OVERLAP_SIZE, MIN_IMAGE_SIZE in ingest_hybrid.py). -/
structure Config where
  MIN_TEXT_LENGTH : Nat
  OVERLAP_SIZE : Nat
  MIN_IMAGE_SIZE : Nat
deriving DecidableEq

/-- Default configuration: MIN_TEXT_LENGTH 500, OVERLAP_SIZE 500,
MIN_IMAGE_SIZE 3000. -/
def defaultConfig : Config := ⟨500, 500, 3000⟩

/-- DIAGRAM_KEYWORDS of ingest_hybrid.py (English and Turkish). -/
def DIAGRAM_KEYWORDS : List String :=
  ["Fig", "Figure", "Plate", "Diagram", "See illustration",
   "Mount", "Line", "drawing", "sketch", "chart", "image",
   "Şekil", "Çizim", "Resim", "Diyagram", "Tablo",
   "Çizgi", "Tepe", "şekilde", "görüldüğü", "bakınız"]

/-- Substring containment, modelling the python operator needle in hay. -/
def strContainsSub (hay needle : String) : Bool :=
  (List.range (hay.data.length + 1)).any
    (fun i => needle.data.isPrefixOf (hay.data.drop i))

/-- Python str.strip(): removes leading and trailing whitespace characters
(modelled for the ASCII whitespace characters). -/
def pyStrip (s : String) : String :=
  String.mk
    (((s.data.dropWhile Char.isWhitespace).reverse.dropWhile
        Char.isWhitespace).reverse)

/-- Python str.lower(), modelled at the level of the ASCII case mapping. -/
def pyLower (s : String) : String := String.mk (s.data.map Char.toLower)

/-- has_diagram_keywords of ingest_hybrid.py: case-insensitive containment
of any diagram keyword in the text. -/
def has_diagram_keywords (text : String) : Bool :=
  let text_lower := pyLower text
  DIAGRAM_KEYWORDS.any (fun keyword => strContainsSub text_lower (pyLower keyword))

/-- One embedded raster image of a page, together with the behaviour of the
external world on it: whether doc.extract_image succeeds, whether the
interpreter call on it succeeds, and the (deterministic) interpreter
response. -/
structure EmbeddedImage where
  numBytes : Nat
  extractOk : Bool
  visionOk : Bool
  visionDesc : String
deriving DecidableEq

/-- A call issued to the external Image Interpreter (analyze_with_vision). -/
inductive VisionCall
  | embedded (pageNum imgIdx numBytes : Nat)
  | fullPage (pageNum : Nat)
  | diagramOnly (pageNum : Nat)
deriving DecidableEq

/-- A PDF page as seen by the pipeline: native text layer, embedded images,
and the deterministic interpreter responses for the two full-page prompts.
raisesError models an exception raised while processing this page (caught by
the per-page loop of process_pdf). -/
structure Page where
  text : String
  images : List EmbeddedImage
  fullPageDesc : String
  diagramDesc : String
  raisesError : Bool
deriving DecidableEq

/-- The body of the per-image loop of extract_embedded_images: extraction
failure is skipped; an image with 50 < bytes < MIN_IMAGE_SIZE is skipped by
the size filter (line 226 of ingest_hybrid.py: if 50 < len(image_bytes) <
MIN_IMAGE_SIZE: continue); otherwise the image is sent to the interpreter,
and on success the tagged description is produced. -/
def processImage (cfg : Config) (pageNum idx : Nat) (img : EmbeddedImage) :
    Option String × List VisionCall :=
  if !img.extractOk then (none, [])
  else if 50 < img.numBytes ∧ img.numBytes < cfg.MIN_IMAGE_SIZE then (none, [])
  else
    let desc :=
      if img.visionOk then
        some ("[IMAGE " ++ toString (idx + 1) ++ " - Page " ++ toString pageNum
              ++ "]: " ++ img.visionDesc)
      else none
    (desc, [VisionCall.embedded pageNum (idx + 1) img.numBytes])

/-- The per-image loop of extract_embedded_images, indexed from idx. -/
def extractImagesAux (cfg : Config) (pageNum : Nat) :
    Nat → List EmbeddedImage → List String × List VisionCall
  | _, [] => ([], [])
  | idx, img :: rest =>
    let r := processImage cfg pageNum idx img
    let rs := extractImagesAux cfg pageNum (idx + 1) rest
    (match r.fst with
     | some d => d :: rs.fst
     | none => rs.fst,
     r.snd ++ rs.snd)

/-- extract_embedded_images of ingest_hybrid.py: descriptions of the
retained embedded images of a page, together with the interpreter calls
made. -/
def extract_embedded_images (cfg : Config) (page : Page) (pageNum : Nat) :
    List String × List VisionCall :=
  extractImagesAux cfg pageNum 0 page.images

/-- An embedded image is retained by the extractor when its bytes decode and
the size filter does not discard it.  Per the code the filter discards only
images whose byte length lies strictly between 50 and MIN_IMAGE_SIZE. -/
def retained (cfg : Config) (img : EmbeddedImage) : Prop :=
  img.extractOk = true ∧ ¬(50 < img.numBytes ∧ img.numBytes < cfg.MIN_IMAGE_SIZE)

instance (cfg : Config) (img : EmbeddedImage) : Decidable (retained cfg img) := by
  unfold retained; infer_instance

/-- Python slice s[-k:] on a string (for k = 0 it yields the whole string,
since s[-0:] is s[0:]). -/
def pySliceLast (k : Nat) (s : String) : String :=
  if k = 0 then s else String.mk (s.data.drop (s.data.length - k))

/-- The overlap tail computed at the end of process_page_hybrid:
raw_text[-OVERLAP_SIZE:] when len(raw_text) > OVERLAP_SIZE, else raw_text. -/
def computeNewTail (k : Nat) (raw_text : String) : String :=
  if raw_text.length > k then pySliceLast k raw_text else raw_text

/-- The continuation marker prefixed to the carried overlap text. -/
def OVERLAP_MARKER : String := "[...önceki sayfadan devam...]\n"

/-- Processing mode of a page. -/
inductive Mode
  | TEXT_ONLY
  | TEXT_WITH_IMAGES
  | HYBRID
  | VISION_FULL
deriving DecidableEq

/-- The if/elif classifier chain of process_page_hybrid (lines 285 to 315):
computes the processing mode, the full-page render description, and the
full-page interpreter calls made, in evaluation order text-length gate,
keyword gate, image gate. -/
def classifyStep (cfg : Config) (page : Page) (pageNum : Nat)
    (raw_text : String) (has_images : Bool) : Mode × String × List VisionCall :=
  if raw_text.length < cfg.MIN_TEXT_LENGTH then
    (Mode.VISION_FULL, page.fullPageDesc, [VisionCall.fullPage pageNum])
  else if has_diagram_keywords raw_text then
    (Mode.HYBRID,
     (if strContainsSub page.diagramDesc "NO_DIAGRAMS_FOUND" then ""
      else page.diagramDesc),
     [VisionCall.diagramOnly pageNum])
  else if has_images then (Mode.TEXT_WITH_IMAGES, "", [])
  else (Mode.TEXT_ONLY, "", [])

/-- Content assembly of process_page_hybrid (step 4, lines 317 to 340):
overlap part, then main part (vision output in VISION_FULL mode, otherwise
raw text plus an optional diagram-analysis block), then the embedded-image
block. -/
def assembleContent (cfg : Config) (previous_tail raw_text render_desc : String)
    (image_descriptions : List String) (mode : Mode) : String :=
  (if previous_tail ≠ "" ∧ 0 < cfg.OVERLAP_SIZE then
     OVERLAP_MARKER ++ previous_tail ++ "\n\n"
   else "") ++
  ((if mode = Mode.VISION_FULL then render_desc
    else
      (if raw_text ≠ "" then raw_text else "") ++
      (if render_desc ≠ "" then "\n\n[DIAGRAM ANALYSIS]\n" ++ render_desc else "")) ++
   (if image_descriptions ≠ [] then
      "\n\n[EMBEDDED IMAGES]\n" ++ String.intercalate "\n\n" image_descriptions
    else ""))

/-- Result of process_page_hybrid: the tuple (content, new_tail, mode),
extended with the list of interpreter calls made while processing the
page. -/
structure PageResult where
  content : String
  newTail : String
  mode : Mode
  calls : List VisionCall
deriving DecidableEq

/-- process_page_hybrid of ingest_hybrid.py (lines 248 to 349). -/
def process_page_hybrid (cfg : Config) (page : Page) (pageNum : Nat)
    (previous_tail : String) : PageResult :=
  let raw_text := (pyStrip page.text)
  let ei := extract_embedded_images cfg page pageNum
  let cls := classifyStep cfg page pageNum raw_text (decide (0 < ei.fst.length))
  { content := assembleContent cfg previous_tail raw_text cls.2.1 ei.fst cls.1,
    newTail := computeNewTail cfg.OVERLAP_SIZE raw_text,
    mode := cls.1,
    calls := ei.snd ++ cls.2.2 }

/-- Per-file statistics dictionary of process_pdf. -/
structure Stats where
  total_pages : Nat
  text_only_pages : Nat
  text_with_images_pages : Nat
  vision_full_pages : Nat
  hybrid_pages : Nat
  skipped_pages : Nat
  documents_added : Nat
  total_images_analyzed : Nat
deriving DecidableEq

/-- The all-zero statistics record created at the start of process_pdf. -/
def zeroStats : Stats := ⟨0, 0, 0, 0, 0, 0, 0, 0⟩

/-- Metadata attached to a written document (process_pdf, lines 419 to 426). -/
structure DocMeta where
  source : String
  page : Nat
  type : String
  processing_mode : Mode
  has_overlap : Bool
  processed_at : String
deriving DecidableEq

/-- A langchain Document handed to the vector store. -/
structure Doc where
  page_content : String
  metadata : DocMeta
deriving DecidableEq

/-- State threaded through the per-page loop of process_pdf: the accumulated
batch, the carried overlap tail, and the statistics. -/
structure LoopState where
  documents : List Doc
  previous_tail : String
  stats : Stats
deriving DecidableEq

/-- The per-mode statistics update of process_pdf (lines 398 to 405). -/
def bumpMode (s : Stats) (m : Mode) : Stats :=
  match m with
  | Mode.TEXT_ONLY => { s with text_only_pages := s.text_only_pages + 1 }
  | Mode.TEXT_WITH_IMAGES =>
      { s with text_with_images_pages := s.text_with_images_pages + 1 }
  | Mode.VISION_FULL => { s with vision_full_pages := s.vision_full_pages + 1 }
  | Mode.HYBRID => { s with hybrid_pages := s.hybrid_pages + 1 }

/-- Number of occurrences of needle in hay, modelling python str.count.  For
the needle used by the code, "[IMAGE", no two occurrences can overlap, so
counting all match positions agrees with the non-overlapping python count. -/
def countSub (hay needle : String) : Nat :=
  ((List.range (hay.data.length + 1)).filter
    (fun i => needle.data.isPrefixOf (hay.data.drop i))).length

/-- One iteration of the per-page loop of process_pdf (lines 381 to 438).
If processing the page raises, the exception handler increments
skipped_pages and leaves everything else unchanged.  Otherwise the mode
statistics are updated, analyzed images are counted, a page whose content
trims to fewer than 50 characters is skipped, and otherwise a Document is
appended to the batch.  now models the per-page datetime.now() reading. -/
def pageStep (cfg : Config) (src : String) (now : Nat → String)
    (st : LoopState) (pageNum : Nat) (page : Page) : LoopState :=
  if page.raisesError then
    { st with stats := { st.stats with skipped_pages := st.stats.skipped_pages + 1 } }
  else
    let r := process_page_hybrid cfg page pageNum st.previous_tail
    let s1 := bumpMode st.stats r.mode
    let s2 :=
      if strContainsSub r.content "[IMAGE" then
        { s1 with total_images_analyzed :=
            s1.total_images_analyzed + countSub r.content "[IMAGE" }
      else s1
    if (pyStrip r.content).length < 50 then
      { documents := st.documents, previous_tail := r.newTail,
        stats := { s2 with skipped_pages := s2.skipped_pages + 1 } }
    else
      { documents := st.documents ++
          [⟨r.content, ⟨src, pageNum, "hybrid_book_page", r.mode,
                        decide (0 < cfg.OVERLAP_SIZE), now pageNum⟩⟩],
        previous_tail := r.newTail, stats := s2 }

/-- The per-page loop of process_pdf, starting at page number n. -/
def processPages (cfg : Config) (src : String) (now : Nat → String) :
    LoopState → Nat → List Page → LoopState
  | st, _, [] => st
  | st, n, p :: ps =>
      processPages cfg src now (pageStep cfg src now st n p) (n + 1) ps

/-- A PDF file as seen by process_pdf: its name, its pages, and the
behaviour of the external world on it (whether fitz.open raises, whether the
vector-store write raises). -/
structure PdfFile where
  name : String
  pages : List Page
  openFails : Bool
  writeFails : Bool
deriving DecidableEq

/-- Result of process_pdf: the returned statistics or the propagated
exception, whether the document handle was opened, whether it was closed,
and the batch of documents handed to the vector store. -/
structure PdfResult where
  outcome : Except String Stats
  opened : Bool
  closed : Bool
  batch : List Doc

/-- process_pdf of ingest_hybrid.py (lines 352 to 453).  The body opens the
document, runs the per-page loop from an empty batch and empty overlap tail,
writes the batch when it is non-empty, and only then closes the handle;
the enclosing except clause re-raises, so an exception from fitz.open or
from add_documents leaves the function without reaching doc.close(). -/
def process_pdf (cfg : Config) (now : Nat → String) (f : PdfFile) : PdfResult :=
  if f.openFails then ⟨Except.error "open", false, false, []⟩
  else
    let st0 : LoopState := ⟨[], "", { zeroStats with total_pages := f.pages.length }⟩
    let fin := processPages cfg f.name now st0 1 f.pages
    if fin.documents.isEmpty then ⟨Except.ok fin.stats, true, true, []⟩
    else if f.writeFails then ⟨Except.error "write", true, false, fin.documents⟩
    else
      ⟨Except.ok { fin.stats with documents_added := fin.documents.length },
       true, true, fin.documents⟩

/-- True exactly on the non-exceptional outcome. -/
def isOkExc (e : Except String Stats) : Bool :=
  match e with
  | Except.ok _ => true
  | Except.error _ => false

/-- The last page of a list that does not raise during processing. -/
def lastGoodPage (pages : List Page) : Option Page :=
  (pages.filter (fun p => !p.raisesError)).getLast?

/-- Strips the timestamp from a document (used to state that everything
except the processed_at metadata field is clock-independent). -/
def eraseT (d : Doc) : Doc :=
  { d with metadata := { d.metadata with processed_at := "" } }

/-- Appending the empty string on the right is the identity. -/
theorem str_append_empty (s : String) : s ++ "" = s := by
  cases s with
  | mk l => show String.mk (l ++ []) = String.mk l
            rw [List.append_nil]

/-- String concatenation is associative. -/
theorem str_append_assoc (a b c : String) : a ++ b ++ c = a ++ (b ++ c) := by
  cases a with
  | mk la =>
    cases b with
    | mk lb =>
      cases c with
      | mk lc => show String.mk (la ++ lb ++ lc) = String.mk (la ++ (lb ++ lc))
                 rw [List.append_assoc]

/-- The computed overlap tail is a suffix of the raw text. -/
theorem computeNewTail_suffix (k : Nat) (s : String) :
    (computeNewTail k s).data <:+ s.data := by
  unfold computeNewTail pySliceLast
  split
  · split
    · exact List.suffix_refl _
    · exact List.drop_suffix _ _
  · exact List.suffix_refl _

/-- For a positive overlap size k, the computed tail has length
min k (length of the raw text): the last k characters, or the whole text
when it is shorter than k. -/
theorem computeNewTail_length (k : Nat) (hk : 0 < k) (s : String) :
    (computeNewTail k s).length = min k s.length := by
  have hk0 : k ≠ 0 := Nat.pos_iff_ne_zero.mp hk
  have hd : s.length = s.data.length := rfl
  unfold computeNewTail pySliceLast
  rw [if_neg hk0]
  split
  · rename_i hgt
    show (s.data.drop (s.data.length - k)).length = min k s.length
    rw [List.length_drop]
    omega
  · rename_i hle
    omega

/-- A non-retained image produces no interpreter call and no description. -/
theorem processImage_not_retained (cfg : Config) (pageNum idx : Nat)
    (img : EmbeddedImage) (h : ¬ retained cfg img) :
    processImage cfg pageNum idx img = (none, []) := by
  unfold retained at h
  unfold processImage
  cases hx : img.extractOk with
  | false => simp [hx]
  | true =>
    have hP : 50 < img.numBytes ∧ img.numBytes < cfg.MIN_IMAGE_SIZE := by
      by_contra hP
      exact h ⟨hx, hP⟩
    simp [hx, hP]

/-- If no image of the list is retained, the extraction loop produces no
description and makes no interpreter call. -/
theorem extractImagesAux_not_retained (cfg : Config) (pageNum : Nat) :
    ∀ (imgs : List EmbeddedImage) (idx : Nat),
      (∀ img ∈ imgs, ¬ retained cfg img) →
      extractImagesAux cfg pageNum idx imgs = ([], []) := by
  intro imgs
  induction imgs with
  | nil => intro idx _; rfl
  | cons img rest ih =>
    intro idx h
    have h1 : ¬ retained cfg img := h img (List.mem_cons_self _ _)
    have h2 : ∀ i ∈ rest, ¬ retained cfg i := fun i hi => h i (List.mem_cons_of_mem _ hi)
    unfold extractImagesAux
    rw [processImage_not_retained cfg pageNum idx img h1, ih (idx + 1) h2]
    rfl

/-- If no image of the page is retained, extract_embedded_images produces no
description and makes no interpreter call. -/
theorem extract_embedded_images_not_retained (cfg : Config) (page : Page)
    (pageNum : Nat) (h : ∀ img ∈ page.images, ¬ retained cfg img) :
    extract_embedded_images cfg page pageNum = ([], []) :=
  extractImagesAux_not_retained cfg pageNum page.images 0 h

/-- The overlap tail returned by process_page_hybrid is computeNewTail of
the stripped native text. -/
theorem process_page_hybrid_newTail (cfg : Config) (page : Page)
    (pageNum : Nat) (t : String) :
    (process_page_hybrid cfg page pageNum t).newTail =
      computeNewTail cfg.OVERLAP_SIZE (pyStrip page.text) := rfl

/-- The calls of process_page_hybrid start with the embedded-image calls. -/
theorem process_page_hybrid_calls (cfg : Config) (page : Page)
    (pageNum : Nat) (t : String) :
    (process_page_hybrid cfg page pageNum t).calls =
      (extract_embedded_images cfg page pageNum).snd ++
      (classifyStep cfg page pageNum (pyStrip page.text)
        (decide (0 < (extract_embedded_images cfg page pageNum).fst.length))).2.2 := rfl

/-- A page that raises is handled by the except clause: skipped_pages is
incremented and the batch and the carried tail are untouched. -/
theorem pageStep_err (cfg : Config) (src : String) (now : Nat → String)
    (st : LoopState) (n : Nat) (p : Page) (hp : p.raisesError = true) :
    pageStep cfg src now st n p =
      { st with stats := { st.stats with
          skipped_pages := st.stats.skipped_pages + 1 } } := by
  unfold pageStep
  rw [hp]
  rfl

/-- For a page that does not raise, the carried tail after the step is the
computed overlap tail of that page. -/
theorem pageStep_tail_ok (cfg : Config) (src : String) (now : Nat → String)
    (st : LoopState) (n : Nat) (p : Page) (hp : p.raisesError = false) :
    (pageStep cfg src now st n p).previous_tail =
      computeNewTail cfg.OVERLAP_SIZE (pyStrip p.text) := by
  unfold pageStep
  rw [hp, if_neg Bool.false_ne_true]
  dsimp only
  split <;> rfl

/-- The per-page loop splits over list append. -/
theorem processPages_append (cfg : Config) (src : String) (now : Nat → String)
    (xs ys : List Page) :
    ∀ (st : LoopState) (n : Nat),
      processPages cfg src now st n (xs ++ ys) =
        processPages cfg src now (processPages cfg src now st n xs)
          (n + xs.length) ys := by
  induction xs with
  | nil => intro st n; rfl
  | cons p ps ih =>
    intro st n
    show processPages cfg src now (pageStep cfg src now st n p) (n + 1) (ps ++ ys) = _
    rw [ih]
    have : n + 1 + ps.length = n + (p :: ps).length := by
      simp [List.length_cons]; omega
    rw [this]
    rfl

/-- Characterization of the carried overlap tail after a run of the
per-page loop: it is the computed tail of the last page that did not raise,
and the initial tail when every page raised. -/
theorem processPages_tail_char (cfg : Config) (src : String) (now : Nat → String)
    (pages : List Page) :
    ∀ (st : LoopState) (n : Nat),
      (processPages cfg src now st n pages).previous_tail =
        (match lastGoodPage pages with
         | none => st.previous_tail
         | some p => computeNewTail cfg.OVERLAP_SIZE (pyStrip p.text)) := by
  induction pages using List.reverseRecOn with
  | nil => intro st n; rfl
  | append_singleton xs p ih =>
    intro st n
    rw [processPages_append]
    show (pageStep cfg src now (processPages cfg src now st n xs) (n + xs.length) p).previous_tail = _
    cases hp : p.raisesError with
    | true =>
      rw [pageStep_err cfg src now _ _ _ hp]
      show (processPages cfg src now st n xs).previous_tail = _
      rw [ih]
      have : lastGoodPage (xs ++ [p]) = lastGoodPage xs := by
        unfold lastGoodPage
        rw [List.filter_append]
        simp [hp]
      rw [this]
    | false =>
      rw [pageStep_tail_ok cfg src now _ _ _ hp]
      have : lastGoodPage (xs ++ [p]) = some p := by
        unfold lastGoodPage
        rw [List.filter_append]
        simp [hp]
      rw [this]

/-- Any document present after a page step was already in the batch or has
content of trimmed length at least 50. -/
theorem pageStep_docs (cfg : Config) (src : String) (now : Nat → String)
    (st : LoopState) (n : Nat) (p : Page) :
    ∀ d ∈ (pageStep cfg src now st n p).documents,
      d ∈ st.documents ∨ 50 ≤ (pyStrip d.page_content).length := by
  intro d hd
  unfold pageStep at hd
  split at hd
  · exact Or.inl hd
  · dsimp only at hd
    split at hd
    · exact Or.inl hd
    · rename_i hlong
      rw [List.mem_append] at hd
      cases hd with
      | inl h => exact Or.inl h
      | inr h =>
        rw [List.mem_singleton] at h
        subst h
        exact Or.inr (Nat.not_lt.mp hlong)

/-- Running the per-page loop preserves the invariant that every batched
document has content of trimmed length at least 50. -/
theorem processPages_docs_long (cfg : Config) (src : String) (now : Nat → String) :
    ∀ (pages : List Page) (st : LoopState) (n : Nat),
      (∀ d ∈ st.documents, 50 ≤ (pyStrip d.page_content).length) →
      ∀ d ∈ (processPages cfg src now st n pages).documents,
        50 ≤ (pyStrip d.page_content).length := by
  intro pages
  induction pages with
  | nil => intro st n h; exact h
  | cons p ps ih =>
    intro st n h
    apply ih
    intro d hd
    cases pageStep_docs cfg src now st n p d hd with
    | inl h2 => exact h d h2
    | inr h2 => exact h2

/-- The per-page step is clock-independent up to the processed_at metadata
field: two steps differing only in the clock produce the same carried tail,
the same statistics, and the same batch up to timestamps. -/
theorem pageStep_time (cfg : Config) (src : String) (now1 now2 : Nat → String)
    (st1 st2 : LoopState) (n : Nat) (p : Page)
    (hdocs : st1.documents.map eraseT = st2.documents.map eraseT)
    (htail : st1.previous_tail = st2.previous_tail)
    (hstats : st1.stats = st2.stats) :
    (pageStep cfg src now1 st1 n p).documents.map eraseT =
      (pageStep cfg src now2 st2 n p).documents.map eraseT ∧
    (pageStep cfg src now1 st1 n p).previous_tail =
      (pageStep cfg src now2 st2 n p).previous_tail ∧
    (pageStep cfg src now1 st1 n p).stats =
      (pageStep cfg src now2 st2 n p).stats := by
  unfold pageStep
  rw [htail, hstats]
  cases hp : p.raisesError with
  | true => exact ⟨hdocs, rfl, rfl⟩
  | false =>
    dsimp only
    rw [if_neg Bool.false_ne_true, if_neg Bool.false_ne_true]
    by_cases hc : (pyStrip (process_page_hybrid cfg p n st2.previous_tail).content).length < 50
    · rw [if_pos hc, if_pos hc]
      exact ⟨hdocs, rfl, rfl⟩
    · rw [if_neg hc, if_neg hc]
      refine ⟨?_, rfl, rfl⟩
      rw [List.map_append, List.map_append, hdocs]
      rfl

/-- The per-page loop is clock-independent up to timestamps. -/
theorem processPages_time (cfg : Config) (src : String) (now1 now2 : Nat → String) :
    ∀ (pages : List Page) (st1 st2 : LoopState) (n : Nat),
      st1.documents.map eraseT = st2.documents.map eraseT →
      st1.previous_tail = st2.previous_tail →
      st1.stats = st2.stats →
      (processPages cfg src now1 st1 n pages).documents.map eraseT =
        (processPages cfg src now2 st2 n pages).documents.map eraseT ∧
      (processPages cfg src now1 st1 n pages).previous_tail =
        (processPages cfg src now2 st2 n pages).previous_tail ∧
      (processPages cfg src now1 st1 n pages).stats =
        (processPages cfg src now2 st2 n pages).stats := by
  intro pages
  induction pages with
  | nil => intro st1 st2 n h1 h2 h3; exact ⟨h1, h2, h3⟩
  | cons p ps ih =>
    intro st1 st2 n h1 h2 h3
    have hstep := pageStep_time cfg src now1 now2 st1 st2 n p h1 h2 h3
    exact ih _ _ (n + 1) hstep.1 hstep.2.1 hstep.2.2

/-- C1 counterexample: under the default configuration a decoded embedded
image of 40 bytes has byte length below MIN_IMAGE_SIZE = 3000, yet
extract_embedded_images sends it to the interpreter and includes its
description in the result, because the size filter at line 226 only
discards images of strictly more than 50 bytes. -/
theorem c1_size_filter_counterexample :
    (40 : Nat) < defaultConfig.MIN_IMAGE_SIZE ∧
    extract_embedded_images defaultConfig
        ⟨"x", [⟨40, true, true, "tiny icon"⟩], "", "", false⟩ 3 =
      (["[IMAGE 1 - Page 3]: tiny icon"], [VisionCall.embedded 3 1 40]) := by
  exact ⟨by decide, by decide⟩

/-- C1 amended: for every embedded image whose decoded byte length is
greater than 50 and less than MIN_IMAGE_SIZE, the per-image loop makes no
interpreter call and produces no description for it. -/
theorem c1_size_filter_amended (cfg : Config) (pageNum idx : Nat)
    (img : EmbeddedImage) (h1 : 50 < img.numBytes)
    (h2 : img.numBytes < cfg.MIN_IMAGE_SIZE) :
    processImage cfg pageNum idx img = (none, []) := by
  unfold processImage
  cases hx : img.extractOk with
  | false => simp [hx]
  | true => simp [hx, h1, h2]

/-- C1 amended witness: a 100-byte image under the default configuration. -/
theorem c1_size_filter_amended_witness :
    (50 : Nat) < 100 ∧ (100 : Nat) < defaultConfig.MIN_IMAGE_SIZE ∧
    processImage defaultConfig 1 0 ⟨100, true, true, "icon"⟩ = (none, []) :=
  ⟨by decide, by decide,
   c1_size_filter_amended defaultConfig 1 0 ⟨100, true, true, "icon"⟩
     (by decide) (by decide)⟩

/-- C3: for every page whose stripped native text length is strictly below
MIN_TEXT_LENGTH, the computed processing mode is VISION_FULL, whatever the
keyword content of the text and whatever embedded images the page carries:
the text-length gate of the classifier is evaluated before the keyword gate
and the image gate. -/
theorem c3_short_text_vision_full (cfg : Config) (page : Page) (pageNum : Nat)
    (previous_tail : String)
    (h : (pyStrip page.text).length < cfg.MIN_TEXT_LENGTH) :
    (process_page_hybrid cfg page pageNum previous_tail).mode = Mode.VISION_FULL := by
  have hmode : (process_page_hybrid cfg page pageNum previous_tail).mode =
      (classifyStep cfg page pageNum (pyStrip page.text)
        (decide (0 < (extract_embedded_images cfg page pageNum).fst.length))).1 := rfl
  rw [hmode]
  unfold classifyStep
  rw [if_pos h]

/-- C3 witness: a 3-character page containing the diagram keyword Fig and a
retained 5000-byte embedded image is still classified VISION_FULL under a
configuration with MIN_TEXT_LENGTH 10. -/
theorem c3_short_text_vision_full_witness :
    ((pyStrip "Fig").length < (10 : Nat)) ∧
    (process_page_hybrid ⟨10, 4, 3000⟩
        ⟨"Fig", [⟨5000, true, true, "a hand diagram"⟩], "full page", "", false⟩
        1 "").mode = Mode.VISION_FULL :=
  ⟨by decide,
   c3_short_text_vision_full ⟨10, 4, 3000⟩
     ⟨"Fig", [⟨5000, true, true, "a hand diagram"⟩], "full page", "", false⟩
     1 "" (by decide)⟩

/-- C4: a page with stripped native text length at least MIN_TEXT_LENGTH,
no diagram keyword in the text, and no embedded image retained by the
extractor is classified TEXT_ONLY, its assembled content is the overlap
part (the marker and the carried tail, when the tail is non-empty and the
overlap size is positive) followed by the stripped raw text, and no
interpreter call at all is made for the page. -/
theorem c4_text_only_assembly (cfg : Config) (page : Page) (pageNum : Nat)
    (t : String)
    (hlen : ¬ (pyStrip page.text).length < cfg.MIN_TEXT_LENGTH)
    (hkw : has_diagram_keywords (pyStrip page.text) = false)
    (himg : ∀ img ∈ page.images, ¬ retained cfg img) :
    (process_page_hybrid cfg page pageNum t).mode = Mode.TEXT_ONLY ∧
    (process_page_hybrid cfg page pageNum t).content =
      (if t ≠ "" ∧ 0 < cfg.OVERLAP_SIZE then OVERLAP_MARKER ++ t ++ "\n\n" else "")
        ++ (pyStrip page.text) ∧
    (process_page_hybrid cfg page pageNum t).calls = [] := by
  have hei : extract_embedded_images cfg page pageNum = ([], []) :=
    extract_embedded_images_not_retained cfg page pageNum himg
  have hcls : classifyStep cfg page pageNum (pyStrip page.text)
      (decide (0 < (extract_embedded_images cfg page pageNum).fst.length)) =
      (Mode.TEXT_ONLY, "", []) := by
    rw [hei]
    unfold classifyStep
    rw [if_neg hlen, hkw]
    simp
  have hmode : (process_page_hybrid cfg page pageNum t).mode =
      (classifyStep cfg page pageNum (pyStrip page.text)
        (decide (0 < (extract_embedded_images cfg page pageNum).fst.length))).1 := rfl
  have hcontent : (process_page_hybrid cfg page pageNum t).content =
      assembleContent cfg t (pyStrip page.text)
        (classifyStep cfg page pageNum (pyStrip page.text)
          (decide (0 < (extract_embedded_images cfg page pageNum).fst.length))).2.1
        (extract_embedded_images cfg page pageNum).fst
        (classifyStep cfg page pageNum (pyStrip page.text)
          (decide (0 < (extract_embedded_images cfg page pageNum).fst.length))).1 := rfl
  refine ⟨by rw [hmode, hcls], ?_, ?_⟩
  · rw [hcontent, hcls, hei]
    unfold assembleContent
    by_cases hraw : (pyStrip page.text) = ""
    · simp [hraw, str_append_empty]
    · simp [hraw, str_append_empty]
  · rw [process_page_hybrid_calls, hcls, hei]
    rfl

/-- C4 witness: a 2-character page with no keywords and no images, under a
configuration with MIN_TEXT_LENGTH 1 and OVERLAP_SIZE 2, carrying the tail
y from the previous page. -/
theorem c4_text_only_assembly_witness :
    (¬ ((pyStrip "zz").length < (1 : Nat))) ∧
    (has_diagram_keywords (pyStrip "zz") = false) ∧
    ((process_page_hybrid ⟨1, 2, 3000⟩ ⟨"zz", [], "", "", false⟩ 2 "y").mode =
        Mode.TEXT_ONLY ∧
     (process_page_hybrid ⟨1, 2, 3000⟩ ⟨"zz", [], "", "", false⟩ 2 "y").content =
       (if ("y" : String) ≠ "" ∧ 0 < (⟨1, 2, 3000⟩ : Config).OVERLAP_SIZE then
          OVERLAP_MARKER ++ "y" ++ "\n\n" else "") ++ (pyStrip "zz") ∧
     (process_page_hybrid ⟨1, 2, 3000⟩ ⟨"zz", [], "", "", false⟩ 2 "y").calls = []) :=
  ⟨by decide, by decide,
   c4_text_only_assembly ⟨1, 2, 3000⟩ ⟨"zz", [], "", "", false⟩ 2 "y"
     (by decide) (by decide) (by decide)⟩

/-- C2: for a positive OVERLAP_SIZE, after a run of the per-page loop whose
last page processed without an exception, the carried overlap tail — the
overlap text handed to the next page — is a suffix of the stripped native
text of that last page, of length min OVERLAP_SIZE (text length): the last
OVERLAP_SIZE characters, or the whole text when it is shorter.  Moreover
the tail depends only on that native text: replacing the last page by any
non-raising page with the same text — whatever its images, its interpreter
responses and hence its processing mode — yields the same tail, so the
overlap is never derived from vision output. -/
theorem c2_overlap_tail (cfg : Config) (src : String) (now : Nat → String)
    (st : LoopState) (n : Nat) (pages : List Page) (p q : Page)
    (hk : 0 < cfg.OVERLAP_SIZE) (hp : p.raisesError = false)
    (hq : q.raisesError = false) (hqt : q.text = p.text) :
    ((processPages cfg src now st n (pages ++ [p])).previous_tail.data <:+
        (pyStrip p.text).data ∧
     (processPages cfg src now st n (pages ++ [p])).previous_tail.length =
       min cfg.OVERLAP_SIZE (pyStrip p.text).length) ∧
    (processPages cfg src now st n (pages ++ [q])).previous_tail =
      (processPages cfg src now st n (pages ++ [p])).previous_tail := by
  have key : ∀ (r : Page), r.raisesError = false →
      (processPages cfg src now st n (pages ++ [r])).previous_tail =
        computeNewTail cfg.OVERLAP_SIZE (pyStrip r.text) := by
    intro r hr
    rw [processPages_append]
    exact pageStep_tail_ok cfg src now _ _ _ hr
  constructor
  · rw [key p hp]
    exact ⟨computeNewTail_suffix _ _, computeNewTail_length _ hk _⟩
  · rw [key q hq, key p hp, hqt]

/-- C2 witness: overlap size 2, a first page, then a last page with text
abcde; the carried tail is the 2-character suffix de, and a page with the
same text but different images and interpreter responses yields the same
tail. -/
theorem c2_overlap_tail_witness :
    (0 < (⟨3, 2, 3000⟩ : Config).OVERLAP_SIZE) ∧
    ((⟨"abcde", [], "", "", false⟩ : Page).raisesError = false) ∧
    ((⟨"abcde", [⟨5000, true, true, "img"⟩], "f", "g", false⟩ : Page).raisesError = false) ∧
    ((⟨"abcde", [⟨5000, true, true, "img"⟩], "f", "g", false⟩ : Page).text =
      (⟨"abcde", [], "", "", false⟩ : Page).text) ∧
    (((processPages ⟨3, 2, 3000⟩ "s" (fun _ => "t") ⟨[], "", zeroStats⟩ 1
          ([⟨"one page", [], "", "", false⟩] ++ [⟨"abcde", [], "", "", false⟩])).previous_tail.data <:+
        (pyStrip (⟨"abcde", [], "", "", false⟩ : Page).text).data ∧
      (processPages ⟨3, 2, 3000⟩ "s" (fun _ => "t") ⟨[], "", zeroStats⟩ 1
          ([⟨"one page", [], "", "", false⟩] ++ [⟨"abcde", [], "", "", false⟩])).previous_tail.length =
        min (⟨3, 2, 3000⟩ : Config).OVERLAP_SIZE
          (pyStrip (⟨"abcde", [], "", "", false⟩ : Page).text).length) ∧
     (processPages ⟨3, 2, 3000⟩ "s" (fun _ => "t") ⟨[], "", zeroStats⟩ 1
         ([⟨"one page", [], "", "", false⟩] ++
          [⟨"abcde", [⟨5000, true, true, "img"⟩], "f", "g", false⟩])).previous_tail =
       (processPages ⟨3, 2, 3000⟩ "s" (fun _ => "t") ⟨[], "", zeroStats⟩ 1
         ([⟨"one page", [], "", "", false⟩] ++ [⟨"abcde", [], "", "", false⟩])).previous_tail) :=
  ⟨by decide, by decide, by decide, by decide,
   c2_overlap_tail ⟨3, 2, 3000⟩ "s" (fun _ => "t") ⟨[], "", zeroStats⟩ 1
     [⟨"one page", [], "", "", false⟩] ⟨"abcde", [], "", "", false⟩
     ⟨"abcde", [⟨5000, true, true, "img"⟩], "f", "g", false⟩
     (by decide) (by decide) (by decide) (by decide)⟩

/-- The mode counters do not touch the skipped-pages counter. -/
theorem bumpMode_skipped (s : Stats) (m : Mode) :
    (bumpMode s m).skipped_pages = s.skipped_pages := by
  cases m <;> rfl

/-- The image counter does not touch the skipped-pages counter. -/
theorem imageCount_skipped (s1 : Stats) (c : String) :
    (if strContainsSub c "[IMAGE" then
       { s1 with total_images_analyzed :=
           s1.total_images_analyzed + countSub c "[IMAGE" }
     else s1).skipped_pages = s1.skipped_pages := by
  split <;> rfl

/-- C5: every document in the batch handed to the vector store has content
of trimmed length at least 50, and a non-raising page whose assembled
content trims to fewer than 50 characters adds no document to the batch
while incrementing the skipped-pages statistic by one (it is counted as
skipped, not as a failure). -/
theorem c5_short_content_skipped (cfg : Config) (now : Nat → String)
    (f : PdfFile) (src : String) (st : LoopState) (pageNum : Nat) (page : Page)
    (hp : page.raisesError = false)
    (hshort : (pyStrip (process_page_hybrid cfg page pageNum
        st.previous_tail).content).length < 50) :
    ((process_pdf cfg now f).batch.all
       (fun d => decide (50 ≤ (pyStrip d.page_content).length)) = true) ∧
    (pageStep cfg src now st pageNum page).documents = st.documents ∧
    (pageStep cfg src now st pageNum page).stats.skipped_pages =
      st.stats.skipped_pages + 1 := by
  have hall : ∀ (l : List Doc), (∀ d ∈ l, 50 ≤ (pyStrip d.page_content).length) →
      (l.all (fun d => decide (50 ≤ (pyStrip d.page_content).length)) = true) := by
    intro l h
    rw [List.all_eq_true]
    intro d hd
    exact decide_eq_true (h d hd)
  have hbatch : ∀ d ∈ (processPages cfg f.name now
      ⟨[], "", { zeroStats with total_pages := f.pages.length }⟩ 1 f.pages).documents,
      50 ≤ (pyStrip d.page_content).length := by
    apply processPages_docs_long
    intro d hd
    exact absurd hd (List.not_mem_nil d)
  refine ⟨?_, ?_⟩
  · unfold process_pdf
    split
    · rfl
    · dsimp only
      split
      · rfl
      · split
        · exact hall _ hbatch
        · exact hall _ hbatch
  · unfold pageStep
    rw [hp, if_neg Bool.false_ne_true]
    dsimp only
    rw [if_pos hshort]
    refine ⟨rfl, ?_⟩
    show (if strContainsSub (process_page_hybrid cfg page pageNum st.previous_tail).content "[IMAGE" then
       { bumpMode st.stats (process_page_hybrid cfg page pageNum st.previous_tail).mode with
         total_images_analyzed :=
           (bumpMode st.stats (process_page_hybrid cfg page pageNum st.previous_tail).mode).total_images_analyzed +
             countSub (process_page_hybrid cfg page pageNum st.previous_tail).content "[IMAGE" }
     else bumpMode st.stats (process_page_hybrid cfg page pageNum st.previous_tail).mode).skipped_pages + 1 =
      st.stats.skipped_pages + 1
    rw [imageCount_skipped, bumpMode_skipped]

/-- C5 witness: a 2-character page assembles to 2 characters of content,
which is below the 50-character threshold: the batch stays empty and the
skipped-pages counter moves from 0 to 1. -/
theorem c5_short_content_skipped_witness :
    ((⟨"ab", [], "", "", false⟩ : Page).raisesError = false) ∧
    ((pyStrip (process_page_hybrid ⟨1, 2, 3000⟩ ⟨"ab", [], "", "", false⟩ 1
        (⟨[], "", zeroStats⟩ : LoopState).previous_tail).content).length < 50) ∧
    (((process_pdf ⟨1, 2, 3000⟩ (fun _ => "t") ⟨"a.pdf", [], false, false⟩).batch.all
        (fun d => decide (50 ≤ (pyStrip d.page_content).length)) = true) ∧
     (pageStep ⟨1, 2, 3000⟩ "s" (fun _ => "t") ⟨[], "", zeroStats⟩ 1
        ⟨"ab", [], "", "", false⟩).documents = (⟨[], "", zeroStats⟩ : LoopState).documents ∧
     (pageStep ⟨1, 2, 3000⟩ "s" (fun _ => "t") ⟨[], "", zeroStats⟩ 1
        ⟨"ab", [], "", "", false⟩).stats.skipped_pages =
       (⟨[], "", zeroStats⟩ : LoopState).stats.skipped_pages + 1) :=
  ⟨by decide, by decide,
   c5_short_content_skipped ⟨1, 2, 3000⟩ (fun _ => "t") ⟨"a.pdf", [], false, false⟩
     "s" ⟨[], "", zeroStats⟩ 1 ⟨"ab", [], "", "", false⟩ (by decide) (by decide)⟩

/-- C6: a page that raises is absorbed by the per-page exception handler:
running the loop over pages pre ++ bad :: post equals running it over pre,
adding one to the skipped-pages counter, and then continuing with post at
the next page number — so every page after the failing one is still
processed and, when eligible, lands in the batch. -/
theorem c6_page_exception_isolated (cfg : Config) (src : String)
    (now : Nat → String) (st : LoopState) (n : Nat)
    (pre : List Page) (bad : Page) (post : List Page)
    (hb : bad.raisesError = true) :
    processPages cfg src now st n (pre ++ bad :: post) =
      processPages cfg src now
        { processPages cfg src now st n pre with
          stats := { (processPages cfg src now st n pre).stats with
            skipped_pages :=
              (processPages cfg src now st n pre).stats.skipped_pages + 1 } }
        (n + pre.length + 1) post := by
  rw [processPages_append]
  show processPages cfg src now
      (pageStep cfg src now (processPages cfg src now st n pre) (n + pre.length) bad)
      (n + pre.length + 1) post = _
  rw [pageStep_err _ _ _ _ _ _ hb]

/-- C6 witness: a raising page between two good pages; the run equals the
run that skips it and continues with the next page. -/
theorem c6_page_exception_isolated_witness :
    ((⟨"boom", [], "", "", true⟩ : Page).raisesError = true) ∧
    (processPages ⟨1, 2, 3000⟩ "s" (fun _ => "t") ⟨[], "", zeroStats⟩ 1
        ([⟨"aa", [], "", "", false⟩] ++ ⟨"boom", [], "", "", true⟩ :: [⟨"bb", [], "", "", false⟩]) =
      processPages ⟨1, 2, 3000⟩ "s" (fun _ => "t")
        { processPages ⟨1, 2, 3000⟩ "s" (fun _ => "t") ⟨[], "", zeroStats⟩ 1
            [⟨"aa", [], "", "", false⟩] with
          stats := { (processPages ⟨1, 2, 3000⟩ "s" (fun _ => "t") ⟨[], "", zeroStats⟩ 1
              [⟨"aa", [], "", "", false⟩]).stats with
            skipped_pages :=
              (processPages ⟨1, 2, 3000⟩ "s" (fun _ => "t") ⟨[], "", zeroStats⟩ 1
                [⟨"aa", [], "", "", false⟩]).stats.skipped_pages + 1 } }
        (1 + [(⟨"aa", [], "", "", false⟩ : Page)].length + 1) [⟨"bb", [], "", "", false⟩]) :=
  ⟨by decide,
   c6_page_exception_isolated ⟨1, 2, 3000⟩ "s" (fun _ => "t") ⟨[], "", zeroStats⟩ 1
     [⟨"aa", [], "", "", false⟩] ⟨"boom", [], "", "", true⟩ [⟨"bb", [], "", "", false⟩]
     (by decide)⟩

/-- C7 counterexample: a file whose single 60-character page produces a
batched document and whose vector-store write raises.  The handle is
opened, the write failure propagates out of process_pdf, and doc.close()
at line 447 is never reached: the handle is not closed on this exit path,
because the function body has no finally clause. -/
theorem c7_handle_close_counterexample :
    (process_pdf ⟨1, 2, 3000⟩ (fun _ => "t")
        ⟨"a.pdf", [⟨"zzzzzzzzzzzzzzzzzzzzzzzzzzzzzzzzzzzzzzzzzzzzzzzzzzzzzzzzzzzz", [], "", "", false⟩], false, true⟩).opened = true ∧
    (process_pdf ⟨1, 2, 3000⟩ (fun _ => "t")
        ⟨"a.pdf", [⟨"zzzzzzzzzzzzzzzzzzzzzzzzzzzzzzzzzzzzzzzzzzzzzzzzzzzzzzzzzzzz", [], "", "", false⟩], false, true⟩).closed = false ∧
    isOkExc (process_pdf ⟨1, 2, 3000⟩ (fun _ => "t")
        ⟨"a.pdf", [⟨"zzzzzzzzzzzzzzzzzzzzzzzzzzzzzzzzzzzzzzzzzzzzzzzzzzzzzzzzzzzz", [], "", "", false⟩], false, true⟩).outcome = false := by
  refine ⟨by decide, by decide, by decide⟩

/-- C7 amended: the document handle is closed exactly on the
normal-completion exit of process_pdf — when the routine returns its
statistics, including the empty-batch case.  On an exceptional exit (a
failed open, or a vector-store write failure) the exception propagates
without the handle being closed. -/
theorem c7_handle_closed_amended (cfg : Config) (now : Nat → String)
    (f : PdfFile) :
    (process_pdf cfg now f).closed = isOkExc (process_pdf cfg now f).outcome := by
  unfold process_pdf
  split
  · rfl
  · dsimp only
    split
    · rfl
    · split
      · rfl
      · rfl

/-- C8: the assembled content strings of the batch, and the returned
statistics, are independent of the clock — the only input of process_pdf
that varies between two runs on the same PDF with the same configuration
and the same deterministic interpreter.  Hence re-running ingestion on an
unchanged document produces byte-identical content strings per page. -/
theorem c8_content_deterministic (cfg : Config) (f : PdfFile)
    (now1 now2 : Nat → String) :
    (process_pdf cfg now1 f).batch.map (fun d => d.page_content) =
      (process_pdf cfg now2 f).batch.map (fun d => d.page_content) ∧
    (process_pdf cfg now1 f).outcome = (process_pdf cfg now2 f).outcome := by
  obtain ⟨hdocs, htail, hstats⟩ := processPages_time cfg f.name now1 now2 f.pages
      ⟨[], "", { zeroStats with total_pages := f.pages.length }⟩
      ⟨[], "", { zeroStats with total_pages := f.pages.length }⟩ 1 rfl rfl rfl
  have hcontent : ∀ (l1 l2 : List Doc), l1.map eraseT = l2.map eraseT →
      l1.map (fun d => d.page_content) = l2.map (fun d => d.page_content) := by
    intro l1 l2 h12
    have h1 : (l1.map eraseT).map (fun d => d.page_content) =
        l1.map (fun d => d.page_content) := by
      rw [List.map_map]
      rfl
    have h2 : (l2.map eraseT).map (fun d => d.page_content) =
        l2.map (fun d => d.page_content) := by
      rw [List.map_map]
      rfl
    rw [← h1, ← h2, h12]
  have hlen : (processPages cfg f.name now1
        ⟨[], "", { zeroStats with total_pages := f.pages.length }⟩ 1 f.pages).documents.length =
      (processPages cfg f.name now2
        ⟨[], "", { zeroStats with total_pages := f.pages.length }⟩ 1 f.pages).documents.length := by
    have h := congrArg List.length hdocs
    rw [List.length_map, List.length_map] at h
    exact h
  have hemptyGen : ∀ (l1 l2 : List Doc), l1.length = l2.length →
      l1.isEmpty = l2.isEmpty := by
    intro l1 l2 h
    cases l1 with
    | nil =>
      cases l2 with
      | nil => rfl
      | cons b bs => simp at h
    | cons a as =>
      cases l2 with
      | nil => simp at h
      | cons b bs => rfl
  have hempty : (processPages cfg f.name now1
        ⟨[], "", { zeroStats with total_pages := f.pages.length }⟩ 1 f.pages).documents.isEmpty =
      (processPages cfg f.name now2
        ⟨[], "", { zeroStats with total_pages := f.pages.length }⟩ 1 f.pages).documents.isEmpty :=
    hemptyGen _ _ hlen
  unfold process_pdf
  by_cases ho : f.openFails = true
  · rw [if_pos ho, if_pos ho]
    exact ⟨rfl, rfl⟩
  · rw [if_neg ho, if_neg ho]
    dsimp only
    by_cases he : (processPages cfg f.name now1
        ⟨[], "", { zeroStats with total_pages := f.pages.length }⟩ 1 f.pages).documents.isEmpty = true
    · have he2 : (processPages cfg f.name now2
          ⟨[], "", { zeroStats with total_pages := f.pages.length }⟩ 1 f.pages).documents.isEmpty = true := by
        rw [← hempty]
        exact he
      rw [if_pos he, if_pos he2]
      exact ⟨rfl, by rw [hstats]⟩
    · have he2 : ¬ (processPages cfg f.name now2
          ⟨[], "", { zeroStats with total_pages := f.pages.length }⟩ 1 f.pages).documents.isEmpty = true := by
        rw [← hempty]
        exact he
      rw [if_neg he, if_neg he2]
      by_cases hw : f.writeFails = true
      · rw [if_pos hw, if_pos hw]
        exact ⟨hcontent _ _ hdocs, rfl⟩
      · rw [if_neg hw, if_neg hw]
        refine ⟨hcontent _ _ hdocs, ?_⟩
        rw [hstats, hlen]

/-- When embedded-image descriptions exist, the assembled content ends with
the embedded-images block, whatever the processing mode. -/
theorem assembleContent_embedded (cfg : Config) (pt raw rd : String)
    (descs : List String) (m : Mode) (h : descs ≠ []) :
    ∃ pre, assembleContent cfg pt raw rd descs m =
      pre ++ ("\n\n[EMBEDDED IMAGES]\n" ++ String.intercalate "\n\n" descs) := by
  unfold assembleContent
  rw [if_pos h]
  exact ⟨_, (str_append_assoc _ _ _).symm⟩

/-- C9: embedded-image extraction and interpretation run for every page,
whatever the computed processing mode — the calls of process_page_hybrid
always begin with the embedded-image interpreter calls, also in VISION_FULL
and HYBRID mode — and whenever descriptions were produced, the assembled
content carries them at the end, after the primary content, under the
embedded-images header. -/
theorem c9_embedded_images_always (cfg : Config) (page : Page)
    (pageNum : Nat) (t : String) :
    (∃ rest, (process_page_hybrid cfg page pageNum t).calls =
       (extract_embedded_images cfg page pageNum).snd ++ rest) ∧
    ((extract_embedded_images cfg page pageNum).fst ≠ [] →
      ∃ pre, (process_page_hybrid cfg page pageNum t).content =
        pre ++ ("\n\n[EMBEDDED IMAGES]\n" ++
          String.intercalate "\n\n" (extract_embedded_images cfg page pageNum).fst)) := by
  constructor
  · exact ⟨_, process_page_hybrid_calls cfg page pageNum t⟩
  · intro hne
    exact assembleContent_embedded cfg t (pyStrip page.text)
      (classifyStep cfg page pageNum (pyStrip page.text)
        (decide (0 < (extract_embedded_images cfg page pageNum).fst.length))).2.1
      (extract_embedded_images cfg page pageNum).fst
      (classifyStep cfg page pageNum (pyStrip page.text)
        (decide (0 < (extract_embedded_images cfg page pageNum).fst.length))).1 hne

/-- C9 witness: a VISION_FULL page (2 characters of text) with a retained
5000-byte embedded image: the embedded call is made besides the full-page
call and the description block is appended to the content. -/
theorem c9_embedded_images_always_witness :
    ((extract_embedded_images ⟨10, 4, 3000⟩
        ⟨"hi", [⟨5000, true, true, "img"⟩], "full desc", "", false⟩ 1).fst ≠ []) ∧
    ((∃ rest, (process_page_hybrid ⟨10, 4, 3000⟩
        ⟨"hi", [⟨5000, true, true, "img"⟩], "full desc", "", false⟩ 1 "").calls =
       (extract_embedded_images ⟨10, 4, 3000⟩
        ⟨"hi", [⟨5000, true, true, "img"⟩], "full desc", "", false⟩ 1).snd ++ rest) ∧
     (∃ pre, (process_page_hybrid ⟨10, 4, 3000⟩
        ⟨"hi", [⟨5000, true, true, "img"⟩], "full desc", "", false⟩ 1 "").content =
       pre ++ ("\n\n[EMBEDDED IMAGES]\n" ++
         String.intercalate "\n\n" (extract_embedded_images ⟨10, 4, 3000⟩
           ⟨"hi", [⟨5000, true, true, "img"⟩], "full desc", "", false⟩ 1).fst))) :=
  ⟨by decide,
   (c9_embedded_images_always ⟨10, 4, 3000⟩
      ⟨"hi", [⟨5000, true, true, "img"⟩], "full desc", "", false⟩ 1 "").1,
   (c9_embedded_images_always ⟨10, 4, 3000⟩
      ⟨"hi", [⟨5000, true, true, "img"⟩], "full desc", "", false⟩ 1 "").2 (by decide)⟩

/-- C10: a page that raises leaves the carried overlap tail untouched, and
after any run of the per-page loop the carried tail is the computed tail of
the most recent page that processed without an exception (the initial tail
when there is none) — so the overlap prefix of the next successfully
processed page comes from the last successful page, not from the failed
one. -/
theorem c10_tail_survives_failure (cfg : Config) (src : String)
    (now : Nat → String) (st : LoopState) (n : Nat) (bad : Page)
    (pages : List Page) (hb : bad.raisesError = true) :
    (pageStep cfg src now st n bad).previous_tail = st.previous_tail ∧
    (processPages cfg src now st n pages).previous_tail =
      (match lastGoodPage pages with
       | none => st.previous_tail
       | some p => computeNewTail cfg.OVERLAP_SIZE (pyStrip p.text)) := by
  constructor
  · rw [pageStep_err _ _ _ _ _ _ hb]
  · exact processPages_tail_char cfg src now pages st n

/-- C10 witness: a good page followed by a raising page; the step on the
raising page keeps the tail, and the run tail is the tail of the good
page. -/
theorem c10_tail_survives_failure_witness :
    ((⟨"boom", [], "", "", true⟩ : Page).raisesError = true) ∧
    ((pageStep ⟨1, 2, 3000⟩ "s" (fun _ => "t") ⟨[], "old", zeroStats⟩ 7
        ⟨"boom", [], "", "", true⟩).previous_tail =
      (⟨[], "old", zeroStats⟩ : LoopState).previous_tail ∧
     (processPages ⟨1, 2, 3000⟩ "s" (fun _ => "t") ⟨[], "old", zeroStats⟩ 7
        [⟨"abc", [], "", "", false⟩, ⟨"boom", [], "", "", true⟩]).previous_tail =
       (match lastGoodPage [⟨"abc", [], "", "", false⟩, ⟨"boom", [], "", "", true⟩] with
        | none => (⟨[], "old", zeroStats⟩ : LoopState).previous_tail
        | some p => computeNewTail (⟨1, 2, 3000⟩ : Config).OVERLAP_SIZE (pyStrip p.text))) :=
  ⟨by decide,
   c10_tail_survives_failure ⟨1, 2, 3000⟩ "s" (fun _ => "t") ⟨[], "old", zeroStats⟩ 7
     ⟨"boom", [], "", "", true⟩
     [⟨"abc", [], "", "", false⟩, ⟨"boom", [], "", "", true⟩] (by decide)⟩
